import Mathlib

/-!
Shallow embedding of the gistfs virtual filesystem adapter (package `gistfs`,
file `gistfs.go`, the current version: the one with the `sync` locks and with
`file` implementing `fs.FileInfo`).

Modelling conventions:
- Go pointers that may be nil are `Option`; the nil-safe go-github getters
  (`GetContent`, `GetFilename`, `GetSize`, `GetUpdatedAt`) are modelled as
  functions returning the zero value on `none`.
- Byte sequences (`[]byte`, string contents) are `List Char` obtained from a
  Lean `String` via `.data`.
- `github.Timestamp` values are opaque integers; the zero timestamp is `0`.
- Go errors are an explicit inductive. `fmt.Errorf("...: %w", e)` is the
  `Err.wrap` constructor and `errors.Is` is `errIs`, which walks the wrap
  chain comparing values, as the Go standard library does.
- The `sync` mutexes and the `github.Client` are concurrency / network
  plumbing outside the state the claims are about; operations are modelled
  as pure functions of the `FS` and handle state, with mutation expressed
  as returning the updated state.
-/

namespace Gistfs

/-- Kinds of sentinel errors from `io/fs` and `io` used by the code:
`fs.ErrInvalid`, `fs.ErrNotExist`, `fs.ErrClosed`, `io.EOF`. -/
inductive ErrKind where
  | invalid
  | notExist
  | closed
  | eof
  deriving DecidableEq, Repr, BEq

/-- Go error values as the code builds them: a bare sentinel, or a
`fmt.Errorf("msg: %w", inner)` wrapper around another error. -/
inductive Err where
  | base : ErrKind → Err
  | wrap : String → Err → Err
  deriving DecidableEq, Repr, BEq

/-- The `errors.Is` check: an error matches a target if it is equal to it or
some error in its `%w` unwrap chain is. -/
def errIs : Err → Err → Bool
  | .base k, t => Err.base k == t
  | .wrap s inner, t => (Err.wrap s inner == t) || errIs inner t

/-- The sentinel `fs.ErrInvalid`. -/
def errInvalid : Err := .base .invalid

/-- The sentinel `fs.ErrNotExist`. -/
def errNotExist : Err := .base .notExist

/-- The sentinel `fs.ErrClosed`. -/
def errClosed : Err := .base .closed

/-- The sentinel `io.EOF`, the normal end-of-content marker of `Read`. -/
def errEOF : Err := .base .eof

/-- The package-level `ErrNotLoaded = fmt.Errorf("gist not loaded: %w",
fs.ErrInvalid)`. -/
def ErrNotLoaded : Err := .wrap "gist not loaded" errInvalid

/-- A `github.GistFile` record: every field is a pointer in the API client,
hence an `Option` here. `content` is the blob text, `size` the size reported
by the API. -/
structure GistFile where
  filename : Option String
  content : Option String
  size : Option Int
  deriving DecidableEq, Repr

/-- The nil-safe getter `GistFile.GetContent`: empty string when absent. -/
def getContent (gf : GistFile) : String := gf.content.getD ""

/-- The nil-safe getter `GistFile.GetFilename`: empty string when absent. -/
def getFilename (gf : GistFile) : String := gf.filename.getD ""

/-- The nil-safe getter `GistFile.GetSize`: zero when absent. -/
def getSize (gf : GistFile) : Int := gf.size.getD 0

/-- The content bytes of a record, i.e. `[]byte(gistFile.GetContent())`. -/
def contentBytes (gf : GistFile) : List Char := (getContent gf).data

/-- A `github.Gist`: the `Files` map (modelled as an association list in a
fixed snapshot order; Go map lookup is exact-name lookup) plus the
`UpdatedAt` timestamp pointer. -/
structure Gist where
  files : List (String × GistFile)
  updatedAt : Option Int
  deriving DecidableEq, Repr

/-- The nil-safe getter `Gist.GetUpdatedAt`: the zero timestamp when absent. -/
def getUpdatedAt (g : Gist) : Int := g.updatedAt.getD 0

/-- Exact-name lookup in the `Files` map, `fsys.gist.Files[GistFilename(name)]`. -/
def lookupFile : List (String × GistFile) → String → Option GistFile
  | [], _ => none
  | (k, v) :: rest, name => if k = name then some v else lookupFile rest name

/-- The `FS` struct: the gist id and the loaded gist (nil until a successful
`Load`). The `github.Client` and the `sync.RWMutex` are omitted (network and
concurrency plumbing). -/
structure FS where
  id : String
  gist : Option Gist
  deriving DecidableEq, Repr

/-- A `bytes.Reader`: the backing bytes and the read position. -/
structure Reader where
  data : List Char
  pos : Nat
  deriving DecidableEq, Repr

/-- One `bytes.Reader.Read(b)` call with a buffer of length `n`: at or past
the end it returns `(0, io.EOF)`; otherwise it copies up to `n` bytes from
the current position, advances the position by the count copied, and returns
that count with no error. The copied bytes stand for the filled buffer
prefix. -/
def readerRead (r : Reader) (n : Nat) : (List Char × Option Err) × Reader :=
  if r.data.length ≤ r.pos then
    (([], some errEOF), r)
  else
    let chunk := (r.data.drop r.pos).take n
    ((chunk, none), { r with pos := r.pos + chunk.length })

/-- The `file` struct: the `*github.GistFile` pointer, the modification time
copied from the gist, and the `io.Reader` (`none` once closed). The per-file
mutex is omitted. -/
structure File where
  gistFile : Option GistFile
  modtime : Int
  reader : Option Reader
  deriving DecidableEq, Repr

/-- The `file` value `FS.Open` constructs for a record: content reader at
position 0, modtime from `gist.GetUpdatedAt()`. -/
def mkFile (g : Gist) (gf : GistFile) : File :=
  { gistFile := some gf
    modtime := getUpdatedAt g
    reader := some { data := contentBytes gf, pos := 0 } }

/-- `FS.Open(name)` for blob names, translated from the source: `ErrNotLoaded`
when no gist is loaded, `fs.ErrNotExist` when the name has no record, else a
fresh `file` over `f.GetContent()`. -/
def FS.Open (fsys : FS) (name : String) : Except Err File :=
  match fsys.gist with
  | none => .error ErrNotLoaded
  | some g =>
    match lookupFile g.files name with
    | none => .error errNotExist
    | some gf => .ok (mkFile g gf)

/-- `FS.ReadFile(name)`, translated from the source: same not-loaded /
not-exist failures as `Open`, otherwise `[]byte(gistFile.GetContent())`. -/
def FS.ReadFile (fsys : FS) (name : String) : Except Err (List Char) :=
  match fsys.gist with
  | none => .error ErrNotLoaded
  | some g =>
    match lookupFile g.files name with
    | none => .error errNotExist
    | some gf => .ok (contentBytes gf)

/-- The `file.isClosed` predicate: the reader pointer is nil. -/
def File.isClosed (f : File) : Bool := f.reader.isNone

/-- `file.Read(b)` on a possibly-nil handle: `fs.ErrInvalid` on a nil
receiver, `fs.ErrClosed` once closed, otherwise delegate to the
`bytes.Reader`. Returns the bytes read, the error, and the updated handle. -/
def File.Read (of : Option File) (n : Nat) : (List Char × Option Err) × Option File :=
  match of with
  | none => (([], some errInvalid), none)
  | some f =>
    match f.reader with
    | none => (([], some errClosed), some f)
    | some r =>
      let step := readerRead r n
      (step.1, some { f with reader := some step.2 })

/-- The handle state after `file.Close`: both the gist-file pointer and the
reader are set to nil. -/
def closedOf (f : File) : File := { f with gistFile := none, reader := none }

/-- `file.Close()` on a possibly-nil handle: `fs.ErrInvalid` on a nil
receiver, otherwise nils out `gistFile` and `reader` and returns no error. -/
def File.Close (of : Option File) : Option Err × Option File :=
  match of with
  | none => (some errInvalid, none)
  | some f => (none, some (closedOf f))

/-- `file.Stat()` on a possibly-nil handle: `fs.ErrInvalid` on nil,
`fs.ErrClosed` once closed, otherwise it returns the handle itself (the
`file` is its own `fs.FileInfo`). -/
def File.Stat (of : Option File) : Except Err File :=
  match of with
  | none => .error errInvalid
  | some f => if f.isClosed then .error errClosed else .ok f

/-- `file.ReadDir(n)` from the source: unconditionally `(nil, fs.ErrInvalid)`,
whatever the handle and whatever `n`. -/
def File.ReadDir (_ : Option File) (_ : Int) : Except Err (List File) :=
  .error errInvalid

/-- `file.Name()`: `f.gistFile.GetFilename()`, nil-safe. -/
def File.Name (f : File) : String :=
  match f.gistFile with
  | some gf => getFilename gf
  | none => ""

/-- `file.Size()`: `int64(f.gistFile.GetSize())`, nil-safe. -/
def File.Size (f : File) : Int :=
  match f.gistFile with
  | some gf => getSize gf
  | none => 0

/-- `file.ModTime()`: the stored modtime. -/
def File.ModTime (f : File) : Int := f.modtime

/-- `file.IsDir()`: always false. -/
def File.IsDir (_ : File) : Bool := false

/-- The caller-side drain loop of "repeatedly calling Read until exhaustion"
with a buffer of length `n`: keep calling `readerRead` and concatenating the
bytes it returns until a call returns no bytes (the `io.EOF` case, or a
zero-length buffer). -/
def drainFrom (r : Reader) (n : Nat) : List Char :=
  if h : ((readerRead r n).1.1).length = 0 then []
  else (readerRead r n).1.1 ++ drainFrom (readerRead r n).2 n
termination_by r.data.length - r.pos
decreasing_by
  simp only [readerRead] at h ⊢
  split at h
  · simp at h
  · rename_i hlt
    simp only [List.length_take, List.length_drop] at h ⊢
    split
    · omega
    · simp only [List.length_take, List.length_drop]
      omega

/-- Draining an open handle: drain its reader; a closed handle yields no
bytes. -/
def drainFile (f : File) (n : Nat) : List Char :=
  match f.reader with
  | some r => drainFrom r n
  | none => []

/-!
Directory-handle machinery. The repository's directory support (the `dir`
type returned by `Open(".")`, its paginated `ReadDir`, its `Stat`, and the
filesystem-level `ReadDir`) is exercised by the repository's tests but its
definition is not among the provided source files, so it is modelled from
the spec (sections 3, 4.1 and 4.3).
-/

/-- Metadata returned by a directory handle's `Stat`. -/
structure DirInfo where
  name : String
  size : Int
  isDir : Bool
  modtime : Int
  deriving DecidableEq, Repr

/-- Modelled from the spec: the Directory Handle (missing from the provided
sources; only the tests exercise it). It holds an ordered, stable snapshot
of File Handles for all loaded records, an `offset` index starting at 0, and
the collection's modification time. -/
structure Dir where
  entries : List File
  offset : Nat
  modtime : Int
  deriving DecidableEq, Repr

/-- Modelled from the spec: the Directory Handle a root open constructs, as
`Open` would build one File Handle per loaded record, in snapshot order,
with `offset` 0. -/
def rootDir (g : Gist) : Dir :=
  { entries := g.files.map (fun p => mkFile g p.2)
    offset := 0
    modtime := getUpdatedAt g }

/-- Whether a path denotes the synthetic root ("." or "/"), per the spec's
"the path that denotes the root ('.' or '/')". -/
def isRoot (name : String) : Bool := name = "." || name = "/"

/-- Modelled from the spec: `ReadDir(n)` on a Directory Handle. For `n <= 0`
it returns all remaining entries from `offset` to the end and advances
`offset` to `len(entries)`; for `n > 0` it returns up to `n` entries from
`offset` and advances `offset` by the count returned. Exhaustion is an empty
result with no error, never an error. -/
def Dir.ReadDir (d : Dir) (n : Int) : (List File × Option Err) × Dir :=
  if n ≤ 0 then
    ((d.entries.drop d.offset, none), { d with offset := d.entries.length })
  else
    let chunk := (d.entries.drop d.offset).take n.toNat
    ((chunk, none), { d with offset := d.offset + chunk.length })

/-- Modelled from the spec: `Stat()` on a Directory Handle returns
root-directory metadata: the fixed root name token, size 0, `isDir` true,
and the collection's modification time. -/
def Dir.Stat (d : Dir) : DirInfo :=
  { name := "./", size := 0, isDir := true, modtime := d.modtime }

/-- Either kind of handle `Open` can return. -/
inductive Handle where
  | file : File → Handle
  | dir : Dir → Handle
  deriving DecidableEq, Repr

/-- Modelled from the spec: the full `Open`, including the root branch that
is missing from the provided sources. Before any successful `Load` every
open fails with `ErrNotLoaded`; the root path yields a fresh Directory
Handle snapshotting all current records; other names follow the source's
blob-open logic. -/
def FS.OpenAny (fsys : FS) (name : String) : Except Err Handle :=
  match fsys.gist with
  | none => .error ErrNotLoaded
  | some g =>
    if isRoot name then .ok (.dir (rootDir g))
    else
      match lookupFile g.files name with
      | none => .error errNotExist
      | some gf => .ok (.file (mkFile g gf))

/-- Modelled from the spec: the filesystem-level `ReadDir(path)` (missing
from the provided sources; the tests call it). It fails with `ErrNotLoaded`
when unloaded, and for the root path returns the full unpaginated entry list
in the same stable order a fresh Directory Handle would enumerate; it is
only valid for the root path. -/
def FS.ReadDir (fsys : FS) (name : String) : Except Err (List File) :=
  match fsys.gist with
  | none => .error ErrNotLoaded
  | some g =>
    if isRoot name then .ok (rootDir g).entries
    else .error errNotExist

/-- Repeated paginated reads: the list of the batches returned by `k`
successive `ReadDir n` calls on the same handle, threading the handle state
through. -/
def readDirBatches (d : Dir) (n : Int) : Nat → List (List File)
  | 0 => []
  | k + 1 =>
    let step := d.ReadDir n
    step.1.1 :: readDirBatches step.2 n k

/-!
Concrete fixtures used by the witnesses and counterexamples, mirroring the
reference gist of the tests (`test1.txt`/`test2.txt` shortened to small
contents). -/

/-- A sample record with consistent size. -/
def gfA : GistFile := { filename := some "a.txt", content := some "hi", size := some 2 }

/-- A second sample record with consistent size. -/
def gfB : GistFile := { filename := some "b.txt", content := some "bye", size := some 3 }

/-- A sample loaded gist holding `gfA` and `gfB`. -/
def sampleGist : Gist := { files := [("a.txt", gfA), ("b.txt", gfB)], updatedAt := some 20200102 }

/-- A filesystem after a successful `Load` of `sampleGist`. -/
def sampleFS : FS := { id := "gid", gist := some sampleGist }

/-- A filesystem before any successful `Load` (`gist` still nil). -/
def unloadedFS : FS := { id := "gid", gist := none }

/-- A record whose API-reported size disagrees with its content length. -/
def gfBad : GistFile := { filename := some "bad.txt", content := some "hi", size := some 5 }

/-- A loaded gist holding only `gfBad`. -/
def badGist : Gist := { files := [("bad.txt", gfBad)], updatedAt := some 20200102 }

/-- A filesystem after loading `badGist`. -/
def badFS : FS := { id := "gid", gist := some badGist }

/-- A record whose content pointer is absent (nil), as the remote API may
return. -/
def gfNil : GistFile := { filename := some "nil.txt", content := none, size := some 0 }

/-- A loaded gist holding only `gfNil`. -/
def nilGist : Gist := { files := [("nil.txt", gfNil)], updatedAt := some 20200102 }

/-- A filesystem after loading `nilGist`. -/
def nilFS : FS := { id := "gid", gist := some nilGist }

/-!
Helper lemmas about draining a `bytes.Reader`.
-/

/-- Taking a prefix and dropping exactly the taken length recovers the
list. -/
theorem take_append_drop_length (l : List Char) (n : Nat) :
    l.take n ++ l.drop ((l.take n).length) = l := by
  rcases le_or_lt n l.length with h | h
  · rw [List.length_take, Nat.min_eq_left h, List.take_append_drop]
  · rw [List.take_of_length_le (Nat.le_of_lt h), List.drop_eq_nil_of_le (le_refl _),
      List.append_nil]

/-- Draining a reader with a positive buffer size returns exactly the bytes
from the current position to the end. -/
theorem drainFrom_eq_drop (n : Nat) (hn : 0 < n) :
    ∀ (k : Nat) (data : List Char) (pos : Nat), data.length - pos ≤ k →
      drainFrom { data := data, pos := pos } n = data.drop pos := by
  intro k
  induction k with
  | zero =>
    intro data pos hk
    have hle : data.length ≤ pos := by omega
    rw [drainFrom]
    simp [readerRead, hle, List.drop_eq_nil_of_le hle]
  | succ k ih =>
    intro data pos hk
    by_cases hle : data.length ≤ pos
    · rw [drainFrom]
      simp [readerRead, hle, List.drop_eq_nil_of_le hle]
    · push_neg at hle
      have hne : ¬ data.length ≤ pos := by omega
      have hcl : ((readerRead { data := data, pos := pos } n).1.1).length
          = min n (data.length - pos) := by
        simp [readerRead, hne]
      have hpos : 0 < min n (data.length - pos) := by omega
      rw [drainFrom]
      rw [dif_neg (by omega)]
      have hrec : (readerRead { data := data, pos := pos } n).2
          = { data := data, pos := pos + min n (data.length - pos) } := by
        simp [readerRead, hne]
      rw [hrec]
      rw [ih data (pos + min n (data.length - pos)) (by omega)]
      have hch : (readerRead { data := data, pos := pos } n).1.1
          = (data.drop pos).take n := by
        simp [readerRead, hne]
      rw [hch]
      have hdd : data.drop (pos + min n (data.length - pos))
          = (data.drop pos).drop (((data.drop pos).take n).length) := by
        rw [List.drop_drop, List.length_take, List.length_drop]
      rw [hdd, take_append_drop_length]

/-- Draining the file handle `Open` builds for a record yields exactly the
record's content bytes. -/
theorem drainFile_mkFile (g : Gist) (gf : GistFile) (n : Nat) (hn : 0 < n) :
    drainFile (mkFile g gf) n = contentBytes gf := by
  show drainFrom { data := contentBytes gf, pos := 0 } n = contentBytes gf
  rw [drainFrom_eq_drop n hn (contentBytes gf).length (contentBytes gf) 0 (by omega)]
  simp

/-- Unfolding of `Dir.ReadDir` in the `n > 0` case. -/
theorem readDir_pos (d : Dir) (n : Int) (hn : 0 < n) :
    d.ReadDir n = (((d.entries.drop d.offset).take n.toNat, none),
      { d with offset := d.offset + ((d.entries.drop d.offset).take n.toNat).length }) := by
  rw [Dir.ReadDir, if_neg (by omega)]

/-- Unfolding of `Dir.ReadDir` in the `n <= 0` case. -/
theorem readDir_nonpos (d : Dir) (n : Int) (hn : n ≤ 0) :
    d.ReadDir n = ((d.entries.drop d.offset, none), { d with offset := d.entries.length }) := by
  rw [Dir.ReadDir, if_pos hn]

/-- On an exhausted directory handle (offset at the end), every further
one-entry read returns an empty batch, so the batch list is all empties. -/
theorem readDirBatches_exhausted (entries : List File) (t : Int) (m : Nat) :
    readDirBatches { entries := entries, offset := entries.length, modtime := t } 1 m
      = List.replicate m [] := by
  induction m with
  | zero => rfl
  | succ m ih =>
    rw [List.replicate_succ]
    simp only [readDirBatches, readDir_pos _ 1 (by omega)]
    simp only [List.drop_length, List.take_nil, List.length_nil, Nat.add_zero]
    rw [ih]

/-- Repeated one-entry reads: starting at `offset`, `(len - offset) + m`
calls return the singleton batches of the remaining entries in order,
followed by `m` empty batches. -/
theorem readDirBatches_one (entries : List File) (t : Int) :
    ∀ (fuel offset m : Nat), entries.length - offset = fuel → offset ≤ entries.length →
      readDirBatches { entries := entries, offset := offset, modtime := t } 1 (fuel + m)
        = (entries.drop offset).map (fun e => [e]) ++ List.replicate m [] := by
  intro fuel
  induction fuel with
  | zero =>
    intro offset m hf h
    have ho : offset = entries.length := by omega
    subst ho
    simp only [Nat.zero_add, List.drop_length, List.map_nil, List.nil_append]
    exact readDirBatches_exhausted entries t m
  | succ fuel ih =>
    intro offset m hf h
    have ho : offset < entries.length := by omega
    have hcount : fuel + 1 + m = (fuel + m) + 1 := by omega
    rw [hcount]
    simp only [readDirBatches, readDir_pos _ 1 (by omega)]
    rw [List.drop_eq_getElem_cons ho]
    simp only [Int.toNat_one, List.take_succ_cons, List.take_zero, List.length_cons,
      List.length_nil, Nat.zero_add, List.map_cons, List.cons_append]
    rw [ih (offset + 1) m (by omega) (by omega)]

/-!
The claims.
-/

/-- C1: for every name present in the collection after a successful Load,
Open(name) succeeds, repeatedly calling Read (with any positive buffer size)
until exhaustion yields exactly the original content bytes of that blob, and
this byte sequence equals what ReadFile(name) returns for the same name. -/
theorem gistfs_C1_open_read_roundtrip (fsys : FS) (g : Gist) (gf : GistFile)
    (name : String) (n : Nat)
    (hg : fsys.gist = some g) (hf : lookupFile g.files name = some gf)
    (hn : 0 < n) :
    FS.Open fsys name = .ok (mkFile g gf) ∧
    drainFile (mkFile g gf) n = contentBytes gf ∧
    FS.ReadFile fsys name = .ok (contentBytes gf) := by
  refine ⟨?_, drainFile_mkFile g gf n hn, ?_⟩
  · simp [FS.Open, hg, hf]
  · simp [FS.ReadFile, hg, hf]

/-- Witness for C1 at the sample filesystem, name "a.txt", buffer size 1. -/
theorem gistfs_C1_witness :
    FS.Open sampleFS "a.txt" = .ok (mkFile sampleGist gfA) ∧
    drainFile (mkFile sampleGist gfA) 1 = contentBytes gfA ∧
    FS.ReadFile sampleFS "a.txt" = .ok (contentBytes gfA) :=
  gistfs_C1_open_read_roundtrip sampleFS sampleGist gfA "a.txt" 1 rfl (by decide) (by decide)

/-- C2: after a successful Load, opening the root path "." returns a fresh
Directory Handle over all current records, not an error: its Stat reports a
directory and draining its ReadDir once enumerates the name of every loaded
blob in snapshot order. -/
theorem gistfs_C2_open_root_dir (fsys : FS) (g : Gist) (hg : fsys.gist = some g) :
    FS.OpenAny fsys "." = .ok (.dir (rootDir g)) ∧
    (rootDir g).Stat.isDir = true ∧
    (((rootDir g).ReadDir (-1)).1.1).map File.Name = g.files.map (fun p => getFilename p.2) := by
  refine ⟨?_, rfl, ?_⟩
  · simp [FS.OpenAny, hg, isRoot]
  · rw [readDir_nonpos _ (-1) (by omega)]
    simp [rootDir, File.Name, mkFile, List.map_map, Function.comp]

/-- Witness for C2 at the sample filesystem. -/
theorem gistfs_C2_witness :
    FS.OpenAny sampleFS "." = .ok (.dir (rootDir sampleGist)) ∧
    (rootDir sampleGist).Stat.isDir = true ∧
    (((rootDir sampleGist).ReadDir (-1)).1.1).map File.Name
      = sampleGist.files.map (fun p => getFilename p.2) :=
  gistfs_C2_open_root_dir sampleFS sampleGist rfl

/-- C3: on a fresh directory handle over K entries, ReadDir(n) with n <= 0
returns all entries in one call and a subsequent call (any argument) returns
an empty batch with no error; with n > 0 it returns up to n entries from the
current offset and advances the offset by the count returned; and ReadDir(1)
called K + m times returns exactly the K singleton batches in snapshot order
(pairwise contiguous and disjoint, since their concatenation is the entry
list itself) followed by m empty batches. -/
theorem gistfs_C3_readdir_pagination (d : Dir) (na nb nc : Int) (m : Nat)
    (h0 : d.offset = 0) (ha : na ≤ 0) (hc : 0 < nc) :
    d.ReadDir na = ((d.entries, none), { d with offset := d.entries.length }) ∧
    Dir.ReadDir { d with offset := d.entries.length } nb
      = (([], none), { d with offset := d.entries.length }) ∧
    (d.ReadDir nc).1.1 = (d.entries.drop d.offset).take nc.toNat ∧
    (d.ReadDir nc).2.offset = d.offset + ((d.ReadDir nc).1.1).length ∧
    readDirBatches d 1 (d.entries.length + m)
      = d.entries.map (fun e => [e]) ++ List.replicate m [] := by
  obtain ⟨entries, off, t⟩ := d
  simp only at h0
  subst h0
  refine ⟨?_, ?_, ?_, ?_, ?_⟩
  · rw [readDir_nonpos _ na ha]
    simp
  · by_cases hb : nb ≤ 0
    · rw [readDir_nonpos _ nb hb]
      simp
    · rw [readDir_pos _ nb (by omega)]
      simp
  · rw [readDir_pos _ nc hc]
  · rw [readDir_pos _ nc hc]
  · have hone := readDirBatches_one entries t entries.length 0 m (by omega) (by omega)
    simpa using hone

/-- Witness for C3 on the root directory handle of the sample filesystem
(two entries), with arguments -1, -1, 1 and two trailing empty reads. -/
theorem gistfs_C3_witness :
    (rootDir sampleGist).ReadDir (-1)
      = (((rootDir sampleGist).entries, none),
         { rootDir sampleGist with offset := (rootDir sampleGist).entries.length }) ∧
    Dir.ReadDir { rootDir sampleGist with offset := (rootDir sampleGist).entries.length } (-1)
      = (([], none), { rootDir sampleGist with offset := (rootDir sampleGist).entries.length }) ∧
    ((rootDir sampleGist).ReadDir 1).1.1
      = ((rootDir sampleGist).entries.drop (rootDir sampleGist).offset).take (1 : Int).toNat ∧
    ((rootDir sampleGist).ReadDir 1).2.offset
      = (rootDir sampleGist).offset + (((rootDir sampleGist).ReadDir 1).1.1).length ∧
    readDirBatches (rootDir sampleGist) 1 ((rootDir sampleGist).entries.length + 2)
      = (rootDir sampleGist).entries.map (fun e => [e]) ++ List.replicate 2 [] :=
  gistfs_C3_readdir_pagination (rootDir sampleGist) (-1) (-1) 1 2 rfl (by decide) (by decide)

/-- C4 counterexample: the claim says Stat's Size equals the byte length of
the content ReadFile returns, but `file.Size()` returns the API-reported
`Size` field of the record, which `Open` never checks against the content.
For the record `gfBad` (size field 5, content "hi") Stat succeeds on the
open handle and reports Size 5, while ReadFile returns the 2 content
bytes. -/
theorem gistfs_C4_counterexample :
    FS.Open badFS "bad.txt" = .ok (mkFile badGist gfBad) ∧
    File.Stat (some (mkFile badGist gfBad)) = .ok (mkFile badGist gfBad) ∧
    File.Size (mkFile badGist gfBad) = 5 ∧
    FS.ReadFile badFS "bad.txt" = .ok "hi".data ∧
    ("hi".data).length = 2 ∧
    File.Size (mkFile badGist gfBad) ≠ (("hi".data).length : Int) := by
  refine ⟨rfl, rfl, by decide, rfl, by decide, by decide⟩

/-- C4 as amended: for every open handle obtained from Open(name), Stat
succeeds and returns the handle; its Size is the record's stored size field,
so whenever the loaded record's size field equals its content's byte length
(as the remote API reports it), Size equals the byte length of the content
ReadFile returns. -/
theorem gistfs_C4_amended_stat_size (fsys : FS) (g : Gist) (gf : GistFile) (name : String)
    (hg : fsys.gist = some g) (hf : lookupFile g.files name = some gf)
    (hsz : getSize gf = ((contentBytes gf).length : Int)) :
    FS.Open fsys name = .ok (mkFile g gf) ∧
    File.Stat (some (mkFile g gf)) = .ok (mkFile g gf) ∧
    File.Size (mkFile g gf) = ((contentBytes gf).length : Int) ∧
    FS.ReadFile fsys name = .ok (contentBytes gf) := by
  refine ⟨by simp [FS.Open, hg, hf], ?_, ?_, by simp [FS.ReadFile, hg, hf]⟩
  · simp [File.Stat, File.isClosed, mkFile]
  · simp [File.Size, mkFile, hsz]

/-- Witness for the amended C4 at the sample filesystem, name "a.txt". -/
theorem gistfs_C4_witness :
    FS.Open sampleFS "a.txt" = .ok (mkFile sampleGist gfA) ∧
    File.Stat (some (mkFile sampleGist gfA)) = .ok (mkFile sampleGist gfA) ∧
    File.Size (mkFile sampleGist gfA) = ((contentBytes gfA).length : Int) ∧
    FS.ReadFile sampleFS "a.txt" = .ok (contentBytes gfA) :=
  gistfs_C4_amended_stat_size sampleFS sampleGist gfA "a.txt" rfl (by decide) (by decide)

/-- C5 counterexample: opening a missing name fails with the bare
`fs.ErrNotExist` sentinel, not an error carrying the requested path: the
errors returned for the two distinct missing names "c.txt" and "d.txt" are
the identical payload-free value, so the requested name cannot be recovered
from the error, refuting the "carries the requested path" part of the
claim. -/
theorem gistfs_C5_counterexample :
    FS.Open sampleFS "c.txt" = .error errNotExist ∧
    FS.Open sampleFS "d.txt" = .error errNotExist := by
  refine ⟨rfl, rfl⟩

/-- C5 as amended: for every loaded filesystem and every name with no
matching record, Open(name) fails with the `fs.ErrNotExist` sentinel error;
the error does not carry the requested path. -/
theorem gistfs_C5_amended_notexist (fsys : FS) (g : Gist) (name : String)
    (hg : fsys.gist = some g) (hf : lookupFile g.files name = none) :
    FS.Open fsys name = .error errNotExist := by
  simp [FS.Open, hg, hf]

/-- Witness for the amended C5 at the sample filesystem, name "c.txt". -/
theorem gistfs_C5_witness : FS.Open sampleFS "c.txt" = .error errNotExist :=
  gistfs_C5_amended_notexist sampleFS sampleGist "c.txt" rfl (by decide)

/-- C6 records a divergence between the code and both the claim and the
repository's own test: `file.ReadDir(n)` always fails, but with the generic
`fs.ErrInvalid` sentinel — the very error nil-handle operations return, so
it is not distinguishable as a "not a directory" kind — whereas the test
`TestReadDir/"NOK ReadDir on a file"` requires a `*fs.PathError`. The
theorem evaluates the code: for every handle and every n, ReadDir returns
exactly the same `fs.ErrInvalid` that `Read` on a nil handle reports. -/
theorem gistfs_C6_readdir_on_file (f : Option File) (n : Int) :
    File.ReadDir f n = .error errInvalid ∧
    (File.Read none 1).1.2 = some errInvalid :=
  ⟨rfl, rfl⟩

/-- C7: for every non-nil file handle, after Close (which returns no error
and nils the record and the reader) every subsequent Read and Stat fails
with `fs.ErrClosed`, and a second Close also returns no error. -/
theorem gistfs_C7_close_semantics (f : File) (n : Nat) :
    File.Close (some f) = (none, some (closedOf f)) ∧
    File.Read (some (closedOf f)) n = (([], some errClosed), some (closedOf f)) ∧
    File.Stat (some (closedOf f)) = .error errClosed ∧
    (File.Close (some (closedOf f))).1 = none := by
  refine ⟨rfl, ?_, ?_, rfl⟩
  · simp [File.Read, closedOf]
  · simp [File.Stat, File.isClosed, closedOf]

/-- C8: before any successful Load (the gist pointer still nil), Open (both
the source's blob Open and the spec-modelled root-aware Open), ReadFile and
the filesystem-level ReadDir all fail with `ErrNotLoaded`; `ErrNotLoaded`
wraps `fs.ErrInvalid`, so an `errors.Is` category check against the generic
invalid-argument sentinel matches even though the two error values are
distinct. -/
theorem gistfs_C8_notloaded (fsys : FS) (name : String) (hg : fsys.gist = none) :
    FS.Open fsys name = .error ErrNotLoaded ∧
    FS.OpenAny fsys name = .error ErrNotLoaded ∧
    FS.ReadFile fsys name = .error ErrNotLoaded ∧
    FS.ReadDir fsys name = .error ErrNotLoaded ∧
    errIs ErrNotLoaded errInvalid = true ∧
    ErrNotLoaded ≠ errInvalid := by
  refine ⟨?_, ?_, ?_, ?_, by decide, by decide⟩
  · simp [FS.Open, hg]
  · simp [FS.OpenAny, hg]
  · simp [FS.ReadFile, hg]
  · simp [FS.ReadDir, hg]

/-- Witness for C8 at the unloaded sample filesystem, name "a.txt". -/
theorem gistfs_C8_witness :
    FS.Open unloadedFS "a.txt" = .error ErrNotLoaded ∧
    FS.OpenAny unloadedFS "a.txt" = .error ErrNotLoaded ∧
    FS.ReadFile unloadedFS "a.txt" = .error ErrNotLoaded ∧
    FS.ReadDir unloadedFS "a.txt" = .error ErrNotLoaded ∧
    errIs ErrNotLoaded errInvalid = true ∧
    ErrNotLoaded ≠ errInvalid :=
  gistfs_C8_notloaded unloadedFS "a.txt" rfl

/-- C9: Stat on an open handle returns the handle itself as the metadata
object (no snapshot); hence after a later Close of that handle — which nils
the gist-file pointer — the metadata object reports an empty Name and Size
0 through the nil-safe getters, while its ModTime and IsDir are
unchanged. -/
theorem gistfs_C9_stat_alias (f : File) (r : Reader) (hr : f.reader = some r) :
    File.Stat (some f) = .ok f ∧
    File.Name (closedOf f) = "" ∧
    File.Size (closedOf f) = 0 ∧
    File.ModTime (closedOf f) = File.ModTime f ∧
    File.IsDir (closedOf f) = File.IsDir f ∧
    File.Close (some f) = (none, some (closedOf f)) := by
  refine ⟨?_, rfl, rfl, rfl, rfl, rfl⟩
  · simp [File.Stat, File.isClosed, hr]

/-- Witness for C9 at the handle Open builds for "a.txt". -/
theorem gistfs_C9_witness :
    File.Stat (some (mkFile sampleGist gfA)) = .ok (mkFile sampleGist gfA) ∧
    File.Name (closedOf (mkFile sampleGist gfA)) = "" ∧
    File.Size (closedOf (mkFile sampleGist gfA)) = 0 ∧
    File.ModTime (closedOf (mkFile sampleGist gfA)) = File.ModTime (mkFile sampleGist gfA) ∧
    File.IsDir (closedOf (mkFile sampleGist gfA)) = File.IsDir (mkFile sampleGist gfA) ∧
    File.Close (some (mkFile sampleGist gfA)) = (none, some (closedOf (mkFile sampleGist gfA))) :=
  gistfs_C9_stat_alias (mkFile sampleGist gfA) { data := contentBytes gfA, pos := 0 } rfl

/-- C10: when a loaded record's content pointer is absent (nil), Open on its
name still succeeds — the nil-safe GetContent yields the empty string, so
the handle's first Read returns 0 bytes with the end-of-sequence marker
`io.EOF` — and ReadFile returns the empty byte sequence; neither operation
fails. -/
theorem gistfs_C10_nil_content (fsys : FS) (g : Gist) (gf : GistFile)
    (name : String) (n : Nat)
    (hg : fsys.gist = some g) (hf : lookupFile g.files name = some gf)
    (hc : gf.content = none) :
    FS.Open fsys name = .ok (mkFile g gf) ∧
    File.Read (some (mkFile g gf)) n = (([], some errEOF), some (mkFile g gf)) ∧
    FS.ReadFile fsys name = .ok [] := by
  have hcb : contentBytes gf = [] := by simp [contentBytes, getContent, hc]
  refine ⟨by simp [FS.Open, hg, hf], ?_, by simp [FS.ReadFile, hg, hf, hcb]⟩
  · simp [File.Read, mkFile, readerRead, hcb]

/-- Witness for C10 at the filesystem whose only record has a nil content
pointer, buffer size 3. -/
theorem gistfs_C10_witness :
    FS.Open nilFS "nil.txt" = .ok (mkFile nilGist gfNil) ∧
    File.Read (some (mkFile nilGist gfNil)) 3 = (([], some errEOF), some (mkFile nilGist gfNil)) ∧
    FS.ReadFile nilFS "nil.txt" = .ok [] :=
  gistfs_C10_nil_content nilFS nilGist gfNil "nil.txt" 3 rfl (by decide) rfl

end Gistfs
